import Mathlib

/-!
Verification development for the RollCall attendance firmware
(src/RollCall.ino).  The file gives a shallow embedding of the parts of the
program with decision logic: the number rendering and parsing used when the
remote sheet cell is read and written, the updateAttendance read-modify-write
cycle, the card-presence debouncing in the main loop, the connectivity gate,
the student name table, and the random student draw in handleNewCard.
-/

namespace RollCall

/-- Character classes skipped by the C atol, as in isspace. -/
def isSpaceChar (c : Char) : Bool :=
  c.toNat = 32 || c.toNat = 9 || c.toNat = 10 || c.toNat = 11 ||
    c.toNat = 12 || c.toNat = 13

/-- Decimal digit test, as in the C library isdigit. -/
def isDigitChar (c : Char) : Bool :=
  48 ≤ c.toNat && c.toNat ≤ 57

/-- Numeric value of a decimal digit character. -/
def digitVal (c : Char) : Nat := c.toNat - 48

/-- Character for a decimal digit value below ten. -/
def digitChar (n : Nat) : Char := Char.ofNat (48 + n)

/-- Consume leading decimal digits, accumulating their value, as atol does
after the optional sign. -/
def parseDigits : List Char → Nat → Nat
  | [], acc => acc
  | c :: cs, acc => if isDigitChar c then parseDigits cs (10 * acc + digitVal c) else acc

/-- Core of the C atol after whitespace is skipped: optional sign, then
digits; a string with no leading number yields 0. -/
def atolCore : List Char → Int
  | [] => 0
  | c :: cs =>
    if c.toNat = 45 then -(parseDigits cs 0 : Int)
    else if c.toNat = 43 then (parseDigits cs 0 : Int)
    else (parseDigits (c :: cs) 0 : Int)

/-- Models Arduino String::toInt, which calls the C atol on the buffer:
skip whitespace, optional sign, leading digits, default 0. -/
def atol (s : String) : Int := atolCore (s.data.dropWhile isSpaceChar)

/-- Decimal digits of n, most significant first.  Structured over a fuel
argument so that it is structurally recursive and evaluates in the kernel. -/
def natDigitsFuel : Nat → Nat → List Char
  | 0, _ => []
  | fuel + 1, n =>
    if n < 10 then [digitChar n]
    else natDigitsFuel fuel (n / 10) ++ [digitChar (n % 10)]

/-- Decimal rendering of a natural number, as the Arduino String(int)
constructor renders non-negative values. -/
def natToString (n : Nat) : String := String.mk (natDigitsFuel (n + 1) n)

/-- Decimal rendering of an integer, as the Arduino String(int) constructor. -/
def intToString (i : Int) : String :=
  if i < 0 then "-" ++ natToString i.natAbs else natToString i.toNat

theorem digitChar_isDigit (k : Nat) (hk : k < 10) : isDigitChar (digitChar k) = true := by
  interval_cases k <;> decide

theorem digitVal_digitChar (k : Nat) (hk : k < 10) : digitVal (digitChar k) = k := by
  interval_cases k <;> decide

theorem natDigitsFuel_all_digits (fuel : Nat) :
    ∀ n, (natDigitsFuel fuel n).all isDigitChar = true := by
  induction fuel with
  | zero => intro n; rfl
  | succ fuel ih =>
    intro n
    rw [natDigitsFuel]
    by_cases h : n < 10
    · simp [h, digitChar_isDigit n h]
    · have h10 : n % 10 < 10 := Nat.mod_lt n (by decide)
      simp [h, ih (n / 10), digitChar_isDigit (n % 10) h10]

theorem parseDigits_append (xs ys : List Char) (hxs : xs.all isDigitChar = true) :
    ∀ acc, parseDigits (xs ++ ys) acc = parseDigits ys (parseDigits xs acc) := by
  induction xs with
  | nil => intro acc; rfl
  | cons c cs ih =>
    intro acc
    have hc : isDigitChar c = true ∧ cs.all isDigitChar = true := by
      simpa [List.all_cons] using hxs
    simp [parseDigits, hc.1, ih hc.2]

theorem parseDigits_natDigitsFuel (fuel : Nat) :
    ∀ n acc, n < fuel →
      parseDigits (natDigitsFuel fuel n) acc
        = acc * 10 ^ (natDigitsFuel fuel n).length + n := by
  induction fuel with
  | zero => intro n acc h; exact absurd h (Nat.not_lt_zero n)
  | succ fuel ih =>
    intro n acc h
    rw [natDigitsFuel]
    by_cases h10 : n < 10
    · simp [h10, parseDigits, digitChar_isDigit n h10, digitVal_digitChar n h10]
      ring
    · have hdiv : n / 10 < fuel := by omega
      have hm : n % 10 < 10 := Nat.mod_lt n (by decide)
      rw [if_neg h10,
        parseDigits_append _ _ (natDigitsFuel_all_digits fuel (n / 10)) acc,
        ih (n / 10) acc hdiv]
      simp [parseDigits, digitChar_isDigit (n % 10) hm, digitVal_digitChar (n % 10) hm,
        pow_succ]
      ring_nf
      omega

theorem natDigitsFuel_ne_nil (fuel n : Nat) (h : 0 < fuel) : natDigitsFuel fuel n ≠ [] := by
  cases fuel with
  | zero => exact absurd h (by decide)
  | succ fuel =>
    rw [natDigitsFuel]
    by_cases h10 : n < 10 <;> simp [h10]

theorem isDigitChar_not_space (c : Char) (h : isDigitChar c = true) :
    isSpaceChar c = false := by
  have hc : 48 ≤ c.toNat ∧ c.toNat ≤ 57 := by simpa [isDigitChar] using h
  simp [isSpaceChar]
  omega

theorem dropWhile_all_digits (cs : List Char) (h : cs.all isDigitChar = true) :
    cs.dropWhile isSpaceChar = cs := by
  cases cs with
  | nil => rfl
  | cons c rest =>
    have hc : isDigitChar c = true ∧ rest.all isDigitChar = true := by
      simpa [List.all_cons] using h
    simp [List.dropWhile, isDigitChar_not_space c hc.1]

theorem atolCore_all_digits (cs : List Char) (hne : cs ≠ []) (h : cs.all isDigitChar = true) :
    atolCore cs = (parseDigits cs 0 : Int) := by
  cases cs with
  | nil => exact absurd rfl hne
  | cons c rest =>
    have hc : 48 ≤ c.toNat ∧ c.toNat ≤ 57 := by
      have := (by simpa [List.all_cons] using h : isDigitChar c = true ∧ _)
      simpa [isDigitChar] using this.1
    rw [atolCore, if_neg (by omega), if_neg (by omega)]

/-- Round trip: rendering a natural number and parsing it back with the C
atol recovers the number.  This is the fact that lets the sheet cell be read
back as the count that was written. -/
theorem atol_natToString (n : Nat) : atol (natToString n) = (n : Int) := by
  unfold atol natToString
  have hall := natDigitsFuel_all_digits (n + 1) n
  have hne := natDigitsFuel_ne_nil (n + 1) n (Nat.succ_pos n)
  rw [show (String.mk (natDigitsFuel (n + 1) n)).data = natDigitsFuel (n + 1) n from rfl,
    dropWhile_all_digits _ hall, atolCore_all_digits _ hne hall,
    parseDigits_natDigitsFuel (n + 1) n 0 (Nat.lt_succ_self n)]
  norm_num

theorem natToString_injective : Function.Injective natToString := by
  intro a b h
  have ha := atol_natToString a
  rw [h, atol_natToString b] at ha
  exact_mod_cast ha.symm

theorem intToString_natCast (n : Nat) : intToString (n : Int) = natToString n := by
  unfold intToString
  rw [if_neg (by omega)]
  congr 1

namespace Config

/-- Config::MAX_STUDENTS from the source, a C int. -/
def MAX_STUDENTS : Int := 5

end Config

/-- The remote row store, addressed by spreadsheet range strings; none means
the addressed cell returns no value. -/
def Store := String → Option String

/-- Remote-store requests issued by the program: GSheet.values.get and
GSheet.values.update, each addressed by a range string. -/
inductive Request where
  | get (range : String)
  | update (range value : String)
deriving DecidableEq

/-- Observable outcome of updateAttendance: the invalid-index early return,
the success log with the new count, or the failed-update log. -/
inductive UpdateResult where
  | invalidStudent
  | ok (newCount : Int)
  | remoteWriteFailed
deriving DecidableEq

/-- Behaviour of the remote endpoint during one updateAttendance call:
whether the GSheet.values.get call and the GSheet.values.update call
succeed. -/
structure RemoteEnv where
  readSuccess : Bool
  writeSuccess : Bool

/-- Result, post-state of the remote store, and the list of remote requests
issued, in order. -/
structure UpdateOutcome where
  result : UpdateResult
  store : Store
  requests : List Request

/-- A successful GSheet.values.update replaces the value at one range. -/
def storeWrite (s : Store) (range value : String) : Store :=
  fun r => if r = range then some value else s r

/-- The cell address used by updateAttendance: column C of row
studentIndex + 2, as in the source expression
"Sheet1!C" + String(studentIndex + 2). -/
def cellRange (studentIndex : Int) : String :=
  "Sheet1!C" ++ intToString (studentIndex + 2)

/-- Shallow embedding of updateAttendance from src/RollCall.ino: reject an
out-of-range index before any remote call; otherwise GET the single cell,
default the current count to 0 when the read fails or yields no value, parse
with toInt otherwise, then UPDATE the same cell with String(currentCount + 1). -/
def updateAttendance (env : RemoteEnv) (store : Store) (studentIndex : Int) :
    UpdateOutcome :=
  if studentIndex < 0 ∨ studentIndex ≥ Config.MAX_STUDENTS then
    { result := .invalidStudent, store := store, requests := [] }
  else
    let range := cellRange studentIndex
    let currentCount : Int :=
      if env.readSuccess then
        match store range with
        | some v => atol v
        | none => 0
      else 0
    let newValue := intToString (currentCount + 1)
    if env.writeSuccess then
      { result := .ok (currentCount + 1),
        store := storeWrite store range newValue,
        requests := [.get range, .update range newValue] }
    else
      { result := .remoteWriteFailed, store := store,
        requests := [.get range, .update range newValue] }

theorem storeWrite_same (s : Store) (range value : String) :
    storeWrite s range value range = some value := by
  simp [storeWrite]

theorem storeWrite_other (s : Store) (range value r : String) (h : r ≠ range) :
    storeWrite s range value r = s r := by
  simp [storeWrite, h]

/-- An updateAttendance call only ever writes the one cell it addresses. -/
theorem updateAttendance_frame (env : RemoteEnv) (store : Store) (i : Int)
    (r : String) (h : r ≠ cellRange i) :
    (updateAttendance env store i).store r = store r := by
  unfold updateAttendance
  by_cases hv : i < 0 ∨ i ≥ Config.MAX_STUDENTS
  · simp [hv]
  · by_cases hw : env.writeSuccess <;>
      simp [hv, hw, storeWrite_other _ _ _ _ h]

/-- An invalid index leaves the store untouched. -/
theorem updateAttendance_invalid (env : RemoteEnv) (store : Store) (i : Int)
    (h : i < 0 ∨ i ≥ Config.MAX_STUDENTS) :
    updateAttendance env store i
      = { result := .invalidStudent, store := store, requests := [] } := by
  unfold updateAttendance
  simp [h]

/-- Distinct valid student indices address distinct cells. -/
theorem cellRange_injective (i j : Int)
    (hi0 : 0 ≤ i) (hi1 : i < Config.MAX_STUDENTS)
    (hj0 : 0 ≤ j) (hj1 : j < Config.MAX_STUDENTS) :
    cellRange i = cellRange j → i = j := by
  have hi1 : i < 5 := hi1
  have hj1 : j < 5 := hj1
  interval_cases i <;> interval_cases j <;> revert hi0 <;> decide

/-- The valid path of updateAttendance, when the read succeeds and the cell
holds the decimal rendering of a count. -/
theorem updateAttendance_valid_read (env : RemoteEnv) (store : Store) (i : Int)
    (c : Nat)
    (hv : ¬(i < 0 ∨ i ≥ Config.MAX_STUDENTS))
    (hr : env.readSuccess = true)
    (hc : store (cellRange i) = some (natToString c)) :
    updateAttendance env store i
      = if env.writeSuccess then
          { result := .ok ((c : Int) + 1),
            store := storeWrite store (cellRange i) (natToString (c + 1)),
            requests := [.get (cellRange i),
              .update (cellRange i) (natToString (c + 1))] }
        else
          { result := .remoteWriteFailed, store := store,
            requests := [.get (cellRange i),
              .update (cellRange i) (natToString (c + 1))] } := by
  have hcast : (c : Int) + 1 = ((c + 1 : Nat) : Int) := by push_cast; ring
  unfold updateAttendance
  rw [if_neg hv]
  simp only [hr, if_true, hc, atol_natToString]
  rw [hcast, intToString_natCast]

/-- Whether atol finds a leading integer in the string: after skipping
whitespace there is an optional sign followed by at least one digit. -/
def parsableInt (s : String) : Bool :=
  match s.data.dropWhile isSpaceChar with
  | [] => false
  | c :: rest =>
    if c.toNat = 45 || c.toNat = 43 then
      match rest with
      | [] => false
      | d :: _ => isDigitChar d
    else isDigitChar c

theorem parseDigits_not_digit (cs : List Char) (acc : Nat) :
    (∀ d t, cs = d :: t → isDigitChar d = false) → parseDigits cs acc = acc := by
  intro h
  cases cs with
  | nil => rfl
  | cons d t => simp [parseDigits, h d t rfl]

/-- A string with no parsable leading integer is read by atol as 0. -/
theorem atol_of_not_parsable (s : String) (h : parsableInt s = false) : atol s = 0 := by
  unfold parsableInt at h
  unfold atol
  cases hm : s.data.dropWhile isSpaceChar with
  | nil => rfl
  | cons c rest =>
    rw [hm] at h
    by_cases h45 : c.toNat = 45
    · rw [atolCore, if_pos h45]
      simp only [h45, if_pos] at h
      cases rest with
      | nil => rfl
      | cons d t =>
        have hd : isDigitChar d = false := by simpa using h
        simp [parseDigits, hd]
    · by_cases h43 : c.toNat = 43
      · rw [atolCore, if_neg h45, if_pos h43]
        simp only [h43, if_pos] at h
        cases rest with
        | nil => rfl
        | cons d t =>
          have hd : isDigitChar d = false := by simpa using h
          simp [parseDigits, hd]
      · rw [atolCore, if_neg h45, if_neg h43]
        have hc : isDigitChar c = false := by
          simpa [h45, h43] using h
        simp [parseDigits, hc]

/-- The current count computed by updateAttendance is 0 whenever the read
fails, the cell has no value, or the cell value has no parsable integer. -/
theorem updateAttendance_read_default (env : RemoteEnv) (store : Store) (i : Int)
    (hv : ¬(i < 0 ∨ i ≥ Config.MAX_STUDENTS))
    (hz : env.readSuccess = false ∨ store (cellRange i) = none ∨
      ∃ s, store (cellRange i) = some s ∧ parsableInt s = false) :
    updateAttendance env store i
      = if env.writeSuccess then
          { result := .ok 1,
            store := storeWrite store (cellRange i) (intToString 1),
            requests := [.get (cellRange i), .update (cellRange i) (intToString 1)] }
        else
          { result := .remoteWriteFailed, store := store,
            requests := [.get (cellRange i), .update (cellRange i) (intToString 1)] } := by
  unfold updateAttendance
  rw [if_neg hv]
  have hzero :
      (if env.readSuccess then
        match store (cellRange i) with
        | some v => atol v
        | none => 0
      else 0) = (0 : Int) := by
    rcases hz with hz | hz | ⟨s, hs, hp⟩
    · rw [hz]; rfl
    · rw [hz]; cases env.readSuccess <;> rfl
    · rw [hs]
      cases env.readSuccess
      · rfl
      · show atol s = 0
        exact atol_of_not_parsable s hp
  simp only [hzero]
  norm_num

/-- A concrete store used to evaluate the claims: the cell of student 2
holds the rendering of count 3, every other cell is empty. -/
def demoStore : Store := storeWrite (fun _ => none) (cellRange 2) (natToString 3)

/-- C1: for a valid studentId whose cell holds count c, when both the remote
read and the remote write succeed, updateAttendance reports Ok (c + 1) and
leaves the cell at c + 1. -/
theorem increment_ok (i : Int) (c : Nat) (env : RemoteEnv) (store : Store)
    (h0 : 0 ≤ i) (h1 : i < Config.MAX_STUDENTS)
    (hc : store (cellRange i) = some (natToString c))
    (hr : env.readSuccess = true) (hw : env.writeSuccess = true) :
    (updateAttendance env store i).result = .ok ((c : Int) + 1) ∧
    (updateAttendance env store i).store (cellRange i) = some (natToString (c + 1)) := by
  have hv : ¬(i < 0 ∨ i ≥ Config.MAX_STUDENTS) := by
    push_neg
    exact ⟨h0, h1⟩
  rw [updateAttendance_valid_read env store i c hv hr hc, hw]
  exact ⟨rfl, storeWrite_same _ _ _⟩

/-- Witness for C1 at studentId 2, count 3. -/
theorem increment_ok_witness :
    (updateAttendance ⟨true, true⟩ demoStore 2).result = .ok ((3 : Nat) + 1 : Int) ∧
    (updateAttendance ⟨true, true⟩ demoStore 2).store (cellRange 2)
      = some (natToString (3 + 1)) :=
  increment_ok 2 3 ⟨true, true⟩ demoStore (by decide) (by decide) (by decide) rfl rfl

/-- C2: for a studentId outside the valid range, updateAttendance reports
InvalidStudent, issues no remote request at all, and leaves the store
unchanged. -/
theorem increment_invalid (i : Int) (env : RemoteEnv) (store : Store)
    (h : i < 0 ∨ i ≥ Config.MAX_STUDENTS) :
    (updateAttendance env store i).result = .invalidStudent ∧
    (updateAttendance env store i).requests = [] ∧
    (updateAttendance env store i).store = store := by
  rw [updateAttendance_invalid env store i h]
  exact ⟨rfl, rfl, rfl⟩

/-- Witness for C2 at studentId -1. -/
theorem increment_invalid_witness :
    (updateAttendance ⟨true, true⟩ demoStore (-1)).result = .invalidStudent ∧
    (updateAttendance ⟨true, true⟩ demoStore (-1)).requests = [] ∧
    (updateAttendance ⟨true, true⟩ demoStore (-1)).store = demoStore :=
  increment_invalid (-1) ⟨true, true⟩ demoStore (by decide)

/-- C3: for a valid studentId, when the read succeeds with count c but the
write fails, updateAttendance reports RemoteWriteFailed, the store is left
unchanged (so the cell still holds c, not c + 1), and the only requests are
the one read and the one failed write. -/
theorem increment_write_failed (i : Int) (c : Nat) (env : RemoteEnv) (store : Store)
    (h0 : 0 ≤ i) (h1 : i < Config.MAX_STUDENTS)
    (hc : store (cellRange i) = some (natToString c))
    (hr : env.readSuccess = true) (hw : env.writeSuccess = false) :
    (updateAttendance env store i).result = .remoteWriteFailed ∧
    (updateAttendance env store i).store = store ∧
    (updateAttendance env store i).store (cellRange i) = some (natToString c) ∧
    (updateAttendance env store i).store (cellRange i) ≠ some (natToString (c + 1)) ∧
    (updateAttendance env store i).requests
      = [.get (cellRange i), .update (cellRange i) (natToString (c + 1))] := by
  have hv : ¬(i < 0 ∨ i ≥ Config.MAX_STUDENTS) := by
    push_neg
    exact ⟨h0, h1⟩
  rw [updateAttendance_valid_read env store i c hv hr hc, hw]
  refine ⟨rfl, rfl, hc, ?_, rfl⟩
  show store (cellRange i) ≠ some (natToString (c + 1))
  rw [hc]
  intro heq
  have : natToString c = natToString (c + 1) := by injection heq
  have := natToString_injective this
  omega

/-- Witness for C3 at studentId 2, count 3. -/
theorem increment_write_failed_witness :
    (updateAttendance ⟨true, false⟩ demoStore 2).result = .remoteWriteFailed ∧
    (updateAttendance ⟨true, false⟩ demoStore 2).store = demoStore ∧
    (updateAttendance ⟨true, false⟩ demoStore 2).store (cellRange 2)
      = some (natToString 3) ∧
    (updateAttendance ⟨true, false⟩ demoStore 2).store (cellRange 2)
      ≠ some (natToString (3 + 1)) ∧
    (updateAttendance ⟨true, false⟩ demoStore 2).requests
      = [.get (cellRange 2), .update (cellRange 2) (natToString (3 + 1))] :=
  increment_write_failed 2 3 ⟨true, false⟩ demoStore (by decide) (by decide)
    (by decide) rfl rfl

/-- C4: for a valid studentId, when the read fails or returns no parsable
integer, updateAttendance treats the current count as 0 and proceeds to
write the value 1 to the same cell; when that write succeeds it reports
Ok 1 and the cell holds 1. -/
theorem increment_read_defaults_to_zero (i : Int) (env : RemoteEnv) (store : Store)
    (h0 : 0 ≤ i) (h1 : i < Config.MAX_STUDENTS)
    (hz : env.readSuccess = false ∨ store (cellRange i) = none ∨
      ∃ s, store (cellRange i) = some s ∧ parsableInt s = false) :
    (updateAttendance env store i).requests
      = [.get (cellRange i), .update (cellRange i) "1"] ∧
    (env.writeSuccess = true →
      (updateAttendance env store i).result = .ok 1 ∧
      (updateAttendance env store i).store (cellRange i) = some "1") := by
  have hv : ¬(i < 0 ∨ i ≥ Config.MAX_STUDENTS) := by
    push_neg
    exact ⟨h0, h1⟩
  have hone : intToString 1 = "1" := by decide
  rw [updateAttendance_read_default env store i hv hz]
  by_cases hw : env.writeSuccess
  · rw [hw]
    refine ⟨?_, fun _ => ⟨rfl, ?_⟩⟩
    · show [Request.get (cellRange i), Request.update (cellRange i) (intToString 1)] = _
      rw [hone]
    · show storeWrite store (cellRange i) (intToString 1) (cellRange i) = some "1"
      rw [storeWrite_same, hone]
  · have hw0 : env.writeSuccess = false := by simpa using hw
    rw [hw0]
    refine ⟨?_, fun hcon => absurd hcon (by simp [hw0])⟩
    show [Request.get (cellRange i), Request.update (cellRange i) (intToString 1)] = _
    rw [hone]

/-- Witness for C4 at studentId 0 with a failing read. -/
theorem increment_read_defaults_to_zero_witness :
    (updateAttendance ⟨false, true⟩ demoStore 0).requests
      = [.get (cellRange 0), .update (cellRange 0) "1"] ∧
    ((true : Bool) = true →
      (updateAttendance ⟨false, true⟩ demoStore 0).result = .ok 1 ∧
      (updateAttendance ⟨false, true⟩ demoStore 0).store (cellRange 0) = some "1") :=
  increment_read_defaults_to_zero 0 ⟨false, true⟩ demoStore (by decide) (by decide)
    (Or.inl rfl)

/-- C7: a call for a valid studentId issues exactly one read and then one
write, both addressed to the single cell Sheet1!C(studentId + 2), and no
other cell of the store is changed. -/
theorem increment_frame (i : Int) (env : RemoteEnv) (store : Store)
    (h0 : 0 ≤ i) (h1 : i < Config.MAX_STUDENTS) :
    cellRange i = "Sheet1!C" ++ intToString (i + 2) ∧
    (∃ v, (updateAttendance env store i).requests
      = [.get (cellRange i), .update (cellRange i) v]) ∧
    ∀ r, r ≠ cellRange i → (updateAttendance env store i).store r = store r := by
  have hv : ¬(i < 0 ∨ i ≥ Config.MAX_STUDENTS) := by
    push_neg
    exact ⟨h0, h1⟩
  refine ⟨rfl, ?_, fun r hr => updateAttendance_frame env store i r hr⟩
  unfold updateAttendance
  rw [if_neg hv]
  by_cases hw : env.writeSuccess <;> simp [hw]

/-- Witness for C7 at studentId 1. -/
theorem increment_frame_witness :
    cellRange 1 = "Sheet1!C" ++ intToString (1 + 2) ∧
    (∃ v, (updateAttendance ⟨true, true⟩ demoStore 1).requests
      = [.get (cellRange 1), .update (cellRange 1) v]) ∧
    ∀ r, r ≠ cellRange 1 →
      (updateAttendance ⟨true, true⟩ demoStore 1).store r = demoStore r :=
  increment_frame 1 ⟨true, true⟩ demoStore (by decide) (by decide)

/-- One raw reader poll: whether PICC_IsNewCardPresent reports a card and
whether PICC_ReadCardSerial would succeed on it (the latter is only reached
when the former is true, by short-circuiting). -/
structure Poll where
  raw : Bool
  readable : Bool
deriving DecidableEq

/-- Debounced card event of one loop iteration. -/
inductive Event where
  | arrived
  | removed
  | none
deriving DecidableEq

/-- Card-presence handling of one ready loop iteration from the source: the
state is the static cardPresent flag; the conditions mirror the two
if branches of loop(). -/
def debounceStep (cardPresent : Bool) (p : Poll) : Bool × Event :=
  if !cardPresent && p.raw && p.readable then (true, .arrived)
  else if cardPresent && !p.raw then (false, .removed)
  else (cardPresent, .none)

/-- Events emitted over a poll sequence from a given cardPresent state. -/
def runDebounce (s : Bool) : List Poll → List Event
  | [] => []
  | p :: ps => (debounceStep s p).2 :: runDebounce (debounceStep s p).1 ps

/-- The cardPresent state after each poll of a sequence. -/
def runStates (s : Bool) : List Poll → List Bool
  | [] => []
  | p :: ps => (debounceStep s p).1 :: runStates (debounceStep s p).1 ps

/-- Number of occurrences of one event in an event list. -/
def countEvent (e : Event) : List Event → Nat
  | [] => 0
  | x :: xs => (if x = e then 1 else 0) + countEvent e xs

/-- Number of present-to-absent transitions along a state trace that starts
from the given previous state. -/
def fallCount : Bool → List Bool → Nat
  | _, [] => 0
  | prev, b :: bs => (if prev && !b then 1 else 0) + fallCount b bs

/-- Prepend a sample to the first run of a run list. -/
def consRun (p : Poll) : List (List Poll) → List (List Poll)
  | r :: rs => (p :: r) :: rs
  | [] => [[p]]

/-- Maximal runs of consecutive raw-present polls of a sequence. -/
def trueRuns : List Poll → List (List Poll)
  | [] => []
  | [p] => if p.raw then [[p]] else []
  | p :: q :: ps =>
    if p.raw then
      if q.raw then consRun p (trueRuns (q :: ps))
      else [p] :: trueRuns (q :: ps)
    else trueRuns (q :: ps)

/-- Number of maximal raw-present runs containing at least one readable
sample. -/
def goodRunCount (l : List Poll) : Nat :=
  ((trueRuns l).filter (fun r => r.any (fun q => q.readable))).length

/-- Number of maximal raw-present runs whose first sample is readable: the
counting unit used by the claim under examination. -/
def claimRunCount (l : List Poll) : Nat :=
  ((trueRuns l).filter (fun r =>
    match r with
    | [] => false
    | q :: _ => q.readable)).length

theorem dropWhile_head_false {α : Type} (p : α → Bool) :
    ∀ (l : List α) (q : α) (rest : List α), l.dropWhile p = q :: rest → p q = false := by
  intro l
  induction l with
  | nil => intro q rest h; simp [List.dropWhile] at h
  | cons a t ih =>
    intro q rest h
    by_cases ha : p a
    · rw [List.dropWhile_cons, if_pos ha] at h
      exact ih q rest h
    · rw [List.dropWhile_cons, if_neg ha] at h
      cases h
      simpa using ha

theorem dropWhile_length_le {α : Type} (p : α → Bool) :
    ∀ l : List α, (l.dropWhile p).length ≤ l.length := by
  intro l
  induction l with
  | nil => simp [List.dropWhile]
  | cons a t ih =>
    rw [List.dropWhile_cons]
    by_cases ha : p a
    · rw [if_pos ha]
      simp only [List.length_cons]
      omega
    · rw [if_neg ha]

theorem trueRuns_cons_raw (p : Poll) (ps : List Poll) (h : p.raw = true) :
    trueRuns (p :: ps)
      = (p :: ps.takeWhile (fun q => q.raw))
        :: trueRuns (ps.dropWhile (fun q => q.raw)) := by
  cases ps with
  | nil => simp [trueRuns, h]
  | cons q ps' =>
    by_cases hq : q.raw
    · rw [trueRuns, if_pos h, if_pos hq, trueRuns_cons_raw q ps' hq]
      simp [consRun, List.takeWhile_cons, List.dropWhile_cons, hq]
    · rw [trueRuns, if_pos h, if_neg hq]
      simp only [List.takeWhile_cons, List.dropWhile_cons]
      rw [if_neg hq, if_neg hq]

theorem trueRuns_cons_not_raw (p : Poll) (ps : List Poll) (h : p.raw = false) :
    trueRuns (p :: ps) = trueRuns ps := by
  cases ps with
  | nil => simp [trueRuns, h]
  | cons q ps' => rw [trueRuns, if_neg (by simp [h])]

theorem debounceStep_absent_hit (p : Poll) (h1 : p.raw = true) (h2 : p.readable = true) :
    debounceStep false p = (true, .arrived) := by
  rcases p with ⟨raw, rd⟩
  simp_all [debounceStep]

theorem debounceStep_absent_miss (p : Poll) (h1 : p.raw = true) (h2 : p.readable = false) :
    debounceStep false p = (false, .none) := by
  rcases p with ⟨raw, rd⟩
  simp_all [debounceStep]

theorem debounceStep_absent_idle (p : Poll) (h : p.raw = false) :
    debounceStep false p = (false, .none) := by
  rcases p with ⟨raw, rd⟩
  subst h
  cases rd <;> rfl

theorem debounceStep_present_hold (p : Poll) (h : p.raw = true) :
    debounceStep true p = (true, .none) := by
  rcases p with ⟨raw, rd⟩
  subst h
  cases rd <;> rfl

theorem debounceStep_present_drop (p : Poll) (h : p.raw = false) :
    debounceStep true p = (false, .removed) := by
  rcases p with ⟨raw, rd⟩
  subst h
  cases rd <;> rfl

theorem runDebounce_present_run (A B : List Poll) (hA : ∀ q ∈ A, q.raw = true) :
    runDebounce true (A ++ B) = A.map (fun _ => Event.none) ++ runDebounce true B := by
  induction A with
  | nil => rfl
  | cons a A' ih =>
    have ha := debounceStep_present_hold a (hA a (by simp))
    rw [List.cons_append, runDebounce, ha]
    simp only [List.map_cons, List.cons_append]
    rw [ih (fun q hq => hA q (by simp [hq]))]

theorem countEvent_append (e : Event) (xs ys : List Event) :
    countEvent e (xs ++ ys) = countEvent e xs + countEvent e ys := by
  induction xs with
  | nil => simp [countEvent]
  | cons x t ih =>
    have hstep : countEvent e ((x :: t) ++ ys)
        = (if x = e then 1 else 0) + countEvent e (t ++ ys) := rfl
    rw [hstep, ih, countEvent]
    omega

theorem countEvent_map_none (e : Event) (he : e ≠ Event.none) (A : List Poll) :
    countEvent e (A.map (fun _ => Event.none)) = 0 := by
  induction A with
  | nil => rfl
  | cons a t ih =>
    simp only [List.map_cons, countEvent, ih]
    rw [if_neg (fun h => he h.symm)]

theorem goodRunCount_cons_unreadable (p : Poll) (ps : List Poll)
    (hr : p.raw = true) (hrd : p.readable = false) :
    goodRunCount (p :: ps) = goodRunCount ps := by
  cases ps with
  | nil => simp [goodRunCount, trueRuns, hr, hrd]
  | cons q ps' =>
    by_cases hq : q.raw
    · simp only [goodRunCount]
      rw [trueRuns_cons_raw p (q :: ps') hr, trueRuns_cons_raw q ps' hq,
        List.takeWhile_cons, if_pos hq, List.dropWhile_cons, if_pos hq]
      cases hc : (q :: ps'.takeWhile (fun w => w.raw)).any (fun w => w.readable) <;>
        simp [List.filter_cons, List.any_cons, hrd, hc]
    · simp only [goodRunCount]
      rw [trueRuns_cons_raw p (q :: ps') hr,
        List.takeWhile_cons, if_neg hq, List.dropWhile_cons, if_neg hq]
      simp [List.filter_cons, hrd]

/-- Arrived events emitted from the absent state, counted run by run: the
debouncer emits one Arrived for every maximal raw-present run that contains
at least one readable sample. -/
theorem countArrived_bounded (n : Nat) :
    ∀ l : List Poll, l.length ≤ n →
      countEvent .arrived (runDebounce false l) = goodRunCount l := by
  induction n with
  | zero =>
    intro l hl
    have h0 : l = [] := List.length_eq_zero.mp (Nat.le_zero.mp hl)
    subst h0
    rfl
  | succ n ih =>
    intro l hl
    cases l with
    | nil => rfl
    | cons p ps =>
      have hlps : ps.length ≤ n := by
        simp only [List.length_cons] at hl
        omega
      by_cases hr : p.raw
      · have hAraw : ∀ q ∈ ps.takeWhile (fun w => w.raw), q.raw = true := by
          intro q hq
          simpa using List.mem_takeWhile_imp hq
        by_cases hrd : p.readable
        · rw [runDebounce, debounceStep_absent_hit p hr hrd]
          show 1 + countEvent .arrived (runDebounce true ps) = goodRunCount (p :: ps)
          conv_lhs =>
            rw [← List.takeWhile_append_dropWhile (p := fun q => q.raw) (l := ps),
              runDebounce_present_run _ _ hAraw, countEvent_append,
              countEvent_map_none .arrived (by simp)]
          cases hB : ps.dropWhile (fun q => q.raw) with
          | nil =>
            show 1 + (0 + 0) = goodRunCount (p :: ps)
            simp only [goodRunCount]
            rw [trueRuns_cons_raw p ps hr, hB]
            simp [trueRuns, List.filter_cons, List.any_cons, hrd]
          | cons q B' =>
            have hq : q.raw = false := dropWhile_head_false _ ps q B' hB
            rw [runDebounce, debounceStep_present_drop q hq]
            show 1 + (0 + (0 + countEvent .arrived (runDebounce false B')))
              = goodRunCount (p :: ps)
            have hlB' : B'.length ≤ n := by
              have h1 := dropWhile_length_le (fun q => q.raw) ps
              rw [hB] at h1
              simp only [List.length_cons] at h1
              omega
            rw [ih B' hlB']
            simp only [goodRunCount]
            rw [trueRuns_cons_raw p ps hr, hB, trueRuns_cons_not_raw q B' hq]
            simp [List.filter_cons, List.any_cons, hrd]
            omega
        · have hrd' : p.readable = false := by simpa using hrd
          rw [runDebounce, debounceStep_absent_miss p hr hrd']
          show 0 + countEvent .arrived (runDebounce false ps) = goodRunCount (p :: ps)
          rw [ih ps hlps, goodRunCount_cons_unreadable p ps hr hrd']
          omega
      · have hr' : p.raw = false := by simpa using hr
        rw [runDebounce, debounceStep_absent_idle p hr']
        show 0 + countEvent .arrived (runDebounce false ps) = goodRunCount (p :: ps)
        rw [ih ps hlps]
        simp only [goodRunCount]
        rw [trueRuns_cons_not_raw p ps hr']
        omega

/-- Removed events correspond exactly to present-to-absent transitions of
the cardPresent state. -/
theorem countRemoved_eq (l : List Poll) :
    ∀ s : Bool, countEvent .removed (runDebounce s l) = fallCount s (runStates s l) := by
  induction l with
  | nil => intro s; rfl
  | cons p ps ih =>
    intro s
    rcases p with ⟨raw, rd⟩
    cases s <;> cases raw <;> cases rd <;>
      simp [runDebounce, runStates, debounceStep, countEvent, fallCount, ih]

/-- C5 counterexample: on the polls [present-unreadable, present-readable,
absent] the single maximal run of present samples has an unreadable first
sample, so the claimed rule, one Arrived per maximal run whose first sample
is readable, predicts 0 Arrived events, but the code emits 1, on the second
sample of the run. -/
theorem debounce_first_sample_rule_counterexample :
    countEvent .arrived
        (runDebounce false [⟨true, false⟩, ⟨true, true⟩, ⟨false, false⟩]) = 1 ∧
    claimRunCount [⟨true, false⟩, ⟨true, true⟩, ⟨false, false⟩] = 0 ∧
    (1 : Nat) ≠ 0 := by
  decide

/-- C5 amended: the stated scenario holds, the debouncer emits exactly one
Arrived per maximal run of raw-present samples that contains at least one
sample with a successful serial read (not necessarily its first sample),
and exactly one Removed per transition of the debounced presence state from
present to absent. -/
theorem debounce_event_characterization :
    runDebounce false
        [⟨false, false⟩, ⟨true, true⟩, ⟨true, true⟩, ⟨true, true⟩, ⟨false, false⟩]
      = [.none, .arrived, .none, .none, .removed] ∧
    (∀ l : List Poll, countEvent .arrived (runDebounce false l) = goodRunCount l) ∧
    (∀ l : List Poll,
      countEvent .removed (runDebounce false l) = fallCount false (runStates false l)) :=
  ⟨by decide, fun l => countArrived_bounded l.length l (le_refl _),
    fun l => countRemoved_eq l false⟩

/-- Sequential execution of a list of updateAttendance calls, each with its
own remote behaviour, threading the store through. -/
def runCalls (store : Store) : List (Int × RemoteEnv) → Store
  | [] => store
  | c :: rest => runCalls (updateAttendance c.2 store c.1).store rest

/-- The store used against the monotonicity claim: student 0 holds count 5. -/
def storeC6 : Store := storeWrite (fun _ => none) (cellRange 0) (natToString 5)

/-- C6 counterexample: the claim includes calls whose remote read fails, but
such a call rewrites a cell holding 5 down to 1, a strict decrease of the
stored count. -/
theorem attendance_monotone_counterexample :
    storeC6 (cellRange 0) = some (natToString 5) ∧
    (updateAttendance ⟨false, true⟩ storeC6 0).store (cellRange 0)
      = some (natToString 1) ∧
    (1 : Nat) < 5 := by
  decide

/-- C6 amended: the per-student stored count is monotonically non-decreasing
across every sequence of increment calls in which every remote read
succeeds; a call whose read fails can lower the stored count, as the
counterexample shows. -/
theorem attendance_monotone (calls : List (Int × RemoteEnv)) :
    ∀ (store : Store) (j : Int) (c : Nat),
      0 ≤ j → j < Config.MAX_STUDENTS →
      (∀ e ∈ calls, e.2.readSuccess = true) →
      store (cellRange j) = some (natToString c) →
      ∃ cNew, c ≤ cNew ∧ runCalls store calls (cellRange j) = some (natToString cNew) := by
  induction calls with
  | nil =>
    intro store j c _ _ _ hc
    exact ⟨c, le_refl c, hc⟩
  | cons e rest ih =>
    intro store j c h0 h1 hre hc
    obtain ⟨i, env⟩ := e
    have hread : env.readSuccess = true := hre (i, env) (by simp)
    have hrest : ∀ x ∈ rest, x.2.readSuccess = true :=
      fun x hx => hre x (List.mem_cons_of_mem _ hx)
    show ∃ cNew, c ≤ cNew ∧
      runCalls (updateAttendance env store i).store rest (cellRange j)
        = some (natToString cNew)
    by_cases hv : i < 0 ∨ i ≥ Config.MAX_STUDENTS
    · rw [updateAttendance_invalid env store i hv]
      exact ih store j c h0 h1 hrest hc
    · by_cases hij : i = j
      · subst hij
        rw [updateAttendance_valid_read env store i c hv hread hc]
        by_cases hw : env.writeSuccess
        · rw [hw]
          obtain ⟨cN, hle, hrun⟩ := ih (storeWrite store (cellRange i) (natToString (c + 1)))
            i (c + 1) h0 h1 hrest (storeWrite_same _ _ _)
          exact ⟨cN, le_trans (Nat.le_succ c) hle, hrun⟩
        · have hw0 : env.writeSuccess = false := by simpa using hw
          rw [hw0]
          exact ih store i c h0 h1 hrest hc
      · have hne : cellRange j ≠ cellRange i := by
          intro heq
          push_neg at hv
          exact hij (cellRange_injective i j hv.1 hv.2 h0 h1 heq.symm)
        have hframe := updateAttendance_frame env store i (cellRange j) hne
        exact ih _ j c h0 h1 hrest (by rw [hframe]; exact hc)

/-- Witness for the amended C6 with one successful-read call on a cell
holding 5. -/
theorem attendance_monotone_witness :
    ∃ cNew, 5 ≤ cNew ∧
      runCalls storeC6 [(0, ⟨true, true⟩)] (cellRange 0) = some (natToString cNew) :=
  attendance_monotone [(0, ⟨true, true⟩)] storeC6 0 5 (by decide) (by decide)
    (by decide) (by decide)

/-- Models Arduino random(howbig), which returns a value in [0, howbig), by
reducing an arbitrary seed modulo the bound. -/
def randomBelow (howbig : Int) (seed : Nat) : Int :=
  ((seed % howbig.toNat : Nat) : Int)

/-- handleNewCard from the source: ignore the card identity, draw
random(Config::MAX_STUDENTS), and call updateAttendance on the draw. -/
def handleNewCard (seed : Nat) (env : RemoteEnv) (store : Store) : UpdateOutcome :=
  updateAttendance env store (randomBelow Config.MAX_STUDENTS seed)

/-- External inputs of one loop() iteration: the GSheet.ready() poll, the
reader polls, the random seed and the remote behaviour. -/
structure LoopEnv where
  ready : Bool
  raw : Bool
  readable : Bool
  draw : Nat
  remote : RemoteEnv

/-- Mutable state visible to loop(): isSystemInitialized, the static
cardPresent flag, and the remote store. -/
structure SysState where
  initDone : Bool
  cardPresent : Bool
  store : Store

/-- Observable effects of one loop() iteration: the successor state, the
remote requests issued, whether the reader was polled at all, and the card
event of the iteration. -/
structure LoopOutcome where
  state : SysState
  requests : List Request
  polled : Bool
  event : Event

/-- Shallow embedding of one iteration of loop() from the source: an
uninitialized system returns immediately; a not-ready sheet client logs,
delays and returns; otherwise the card branches run, with a card arrival
invoking handleNewCard. -/
def loopStep (st : SysState) (env : LoopEnv) : LoopOutcome :=
  if !st.initDone then
    { state := st, requests := [], polled := false, event := .none }
  else if !env.ready then
    { state := st, requests := [], polled := false, event := .none }
  else if !st.cardPresent && env.raw && env.readable then
    let out := handleNewCard env.draw env.remote st.store
    { state := { st with cardPresent := true, store := out.store },
      requests := out.requests, polled := true, event := .arrived }
  else if st.cardPresent && !env.raw then
    { state := { st with cardPresent := false }, requests := [], polled := true,
      event := .removed }
  else
    { state := st, requests := [], polled := true, event := .none }

/-- Iterated loop() with the requests of every iteration collected. -/
def runLoop (st : SysState) : List LoopEnv → SysState × List Request
  | [] => (st, [])
  | e :: es =>
    ((runLoop (loopStep st e).state es).1,
      (loopStep st e).requests ++ (runLoop (loopStep st e).state es).2)

theorem loopStep_not_ready (st : SysState) (env : LoopEnv)
    (hinit : st.initDone = true) (hnr : env.ready = false) :
    loopStep st env
      = { state := st, requests := [], polled := false, event := .none } := by
  unfold loopStep
  rw [hinit, hnr]
  rfl

theorem runLoop_not_ready (st : SysState) (hinit : st.initDone = true) :
    ∀ envs : List LoopEnv, (∀ e ∈ envs, e.ready = false) → runLoop st envs = (st, []) := by
  intro envs
  induction envs with
  | nil => intro _; rfl
  | cons e es ih =>
    intro hall
    rw [runLoop, loopStep_not_ready st e hinit (hall e (by simp))]
    rw [show ({ state := st, requests := [], polled := false, event := .none }
        : LoopOutcome).state = st from rfl]
    rw [ih (fun x hx => hall x (by simp [hx]))]
    rfl

/-- C8: once initialized, an iteration whose ready gate is false changes no
state, issues no remote request and performs no reader poll, and any number
of consecutive not-ready iterations behaves the same way, so the loop
retries indefinitely with no give-up threshold and no remote operation is
issued while the gate is false. -/
theorem loop_gated_when_not_ready (st : SysState) (env : LoopEnv)
    (envs : List LoopEnv)
    (hinit : st.initDone = true) (hnr : env.ready = false)
    (hall : ∀ e ∈ envs, e.ready = false) :
    loopStep st env
      = { state := st, requests := [], polled := false, event := .none } ∧
    runLoop st envs = (st, []) :=
  ⟨loopStep_not_ready st env hinit hnr, runLoop_not_ready st hinit envs hall⟩

/-- A concrete initialized system state for witnesses. -/
def idleState : SysState :=
  { initDone := true, cardPresent := false, store := demoStore }

/-- A concrete not-ready loop environment for witnesses. -/
def envNotReady : LoopEnv :=
  { ready := false, raw := true, readable := true, draw := 0, remote := ⟨true, true⟩ }

/-- Witness for C8 over two consecutive not-ready iterations. -/
theorem loop_gated_when_not_ready_witness :
    loopStep idleState envNotReady
      = { state := idleState, requests := [], polled := false, event := .none } ∧
    runLoop idleState [envNotReady, envNotReady] = (idleState, []) :=
  loop_gated_when_not_ready idleState envNotReady [envNotReady, envNotReady]
    rfl rfl (by decide)

theorem updateAttendance_requests_shape (env : RemoteEnv) (store : Store) (i : Int)
    (hv : ¬(i < 0 ∨ i ≥ Config.MAX_STUDENTS)) :
    ∃ v, (updateAttendance env store i).requests
      = [.get (cellRange i), .update (cellRange i) v] := by
  unfold updateAttendance
  rw [if_neg hv]
  by_cases hw : env.writeSuccess <;> simp [hw]

theorem updateAttendance_not_invalid (env : RemoteEnv) (store : Store) (i : Int)
    (hv : ¬(i < 0 ∨ i ≥ Config.MAX_STUDENTS)) :
    (updateAttendance env store i).result ≠ .invalidStudent := by
  unfold updateAttendance
  rw [if_neg hv]
  by_cases hw : env.writeSuccess <;> simp [hw]

/-- C10: the random draw of handleNewCard always lies in
[0, MAX_STUDENTS), so the InvalidStudent branch of updateAttendance is
unreachable from a card event and every such call issues the remote
read-modify-write pair. -/
theorem handleNewCard_always_valid (seed : Nat) (env : RemoteEnv) (store : Store) :
    (0 ≤ randomBelow Config.MAX_STUDENTS seed ∧
      randomBelow Config.MAX_STUDENTS seed < Config.MAX_STUDENTS) ∧
    (handleNewCard seed env store).result ≠ .invalidStudent ∧
    ∃ v, (handleNewCard seed env store).requests
      = [.get (cellRange (randomBelow Config.MAX_STUDENTS seed)),
         .update (cellRange (randomBelow Config.MAX_STUDENTS seed)) v] := by
  have hmod : seed % 5 < 5 := Nat.mod_lt seed (by decide)
  have hrange : 0 ≤ randomBelow Config.MAX_STUDENTS seed ∧
      randomBelow Config.MAX_STUDENTS seed < Config.MAX_STUDENTS := by
    unfold randomBelow
    constructor
    · exact Int.natCast_nonneg _
    · show ((seed % (Config.MAX_STUDENTS).toNat : Nat) : Int) < Config.MAX_STUDENTS
      show ((seed % 5 : Nat) : Int) < 5
      exact_mod_cast hmod
  have hv : ¬(randomBelow Config.MAX_STUDENTS seed < 0 ∨
      randomBelow Config.MAX_STUDENTS seed ≥ Config.MAX_STUDENTS) := by
    push_neg
    exact hrange
  exact ⟨hrange, updateAttendance_not_invalid env store _ hv,
    updateAttendance_requests_shape env store _ hv⟩

/-- StudentDatabase::firstNames from the source, all 100 entries. -/
def firstNames : List String := [
  "Emma", "Liam", "Olivia", "Noah", "Ava", "Ethan", "Isabella", "Mason",
  "Sophia", "Lucas", "Mia", "Oliver", "Charlotte", "James", "Amelia", "Benjamin",
  "Evelyn", "William", "Abigail", "Henry", "Emily", "Alexander", "Elizabeth", "Michael",
  "Avery", "Daniel", "Sofia", "Matthew", "Ella", "Joseph", "Victoria", "David",
  "Grace", "Andrew", "Chloe", "Jack", "Scarlett", "Owen", "Aria", "Luke",
  "Hannah", "Sebastian", "Zoe", "Christopher", "Lily", "Julian", "Madison", "Samuel",
  "Layla", "John", "Nora", "Isaac", "Riley", "Nathan", "Hazel", "Thomas",
  "Lucy", "Charles", "Aurora", "Caleb", "Bella", "Joshua", "Anna", "Ryan",
  "Claire", "Christian", "Violet", "Carter", "Eleanor", "Jonathan", "Audrey", "Dylan",
  "Alice", "Miles", "Savannah", "Gabriel", "Maya", "Adrian", "Sarah", "Leo",
  "Eva", "Anthony", "Natalie", "Adam", "Ruby", "Nicholas", "Skylar", "Austin",
  "Naomi", "Ian", "Julia", "Robert", "Stella", "Aaron", "Katherine", "Blake",
  "Eva", "Cole", "Morgan", "Max"]

/-- StudentDatabase::lastNames from the source, all 100 entries. -/
def lastNames : List String := [
  "Smith", "Johnson", "Williams", "Brown", "Jones", "Garcia", "Miller", "Davis",
  "Rodriguez", "Martinez", "Hernandez", "Lopez", "Gonzalez", "Wilson", "Anderson", "Thomas",
  "Taylor", "Moore", "Jackson", "Martin", "Lee", "Perez", "Thompson", "White",
  "Harris", "Sanchez", "Clark", "Ramirez", "Lewis", "Robinson", "Walker", "Young",
  "Allen", "King", "Wright", "Scott", "Torres", "Nguyen", "Hill", "Flores",
  "Green", "Adams", "Nelson", "Baker", "Hall", "Rivera", "Campbell", "Mitchell",
  "Carter", "Roberts", "Turner", "Phillips", "Evans", "Morris", "Morgan", "Cooper",
  "Peterson", "Rogers", "Reed", "Cook", "Bailey", "Bell", "Murphy", "Morgan",
  "Bennett", "Wood", "Brooks", "Kelly", "Sanders", "Price", "Barnes", "Ross",
  "Watson", "Coleman", "Jenkins", "Perry", "Powell", "Russell", "Howard", "Cox",
  "Ward", "Foster", "Gray", "Brooks", "Fisher", "Jordan", "Owen", "Reynolds",
  "Stevens", "Harrison", "Ruiz", "Kennedy", "Wells", "Burns", "Stone", "Fox",
  "Wallace", "Woods", "Cole", "West"]

/-- StudentDatabase::getFullName from the source: guard the index against
[0, 100) before touching either array, else return "Invalid Student". -/
def getFullName (index : Int) : String :=
  if 0 ≤ index ∧ index < 100 then
    firstNames.getD index.toNat "" ++ " " ++ lastNames.getD index.toNat ""
  else "Invalid Student"

/-- C9: getFullName is total and in-bounds for every integer index: both
arrays have exactly 100 entries, an index in [0, 100) stays within both and
yields first name, space, last name, and any other index yields
"Invalid Student" without an array access. -/
theorem getFullName_safe (i : Int) :
    firstNames.length = 100 ∧ lastNames.length = 100 ∧
    (0 ≤ i ∧ i < 100 →
      i.toNat < firstNames.length ∧ i.toNat < lastNames.length ∧
      getFullName i = firstNames.getD i.toNat "" ++ " " ++ lastNames.getD i.toNat "") ∧
    (¬(0 ≤ i ∧ i < 100) → getFullName i = "Invalid Student") := by
  refine ⟨rfl, rfl, fun h => ⟨?_, ?_, ?_⟩, fun h => ?_⟩
  · show i.toNat < firstNames.length
    have : firstNames.length = 100 := rfl
    omega
  · show i.toNat < lastNames.length
    have : lastNames.length = 100 := rfl
    omega
  · unfold getFullName
    rw [if_pos h]
  · unfold getFullName
    rw [if_neg h]

/-- Witness for C9 at indices 3 and 100. -/
theorem getFullName_safe_witness :
    getFullName 3 = firstNames.getD (3 : Int).toNat "" ++ " "
      ++ lastNames.getD (3 : Int).toNat "" ∧
    getFullName 100 = "Invalid Student" :=
  ⟨((getFullName_safe 3).2.2.1 (by decide)).2.2,
    (getFullName_safe 100).2.2.2 (by decide)⟩

end RollCall
